import Mathlib

/-!
Verification of the live quiz session engine of the gdgc-backend repository.

The definitions below are a shallow embedding of the in-memory session
manager (src/socket/socketHandlers.js, second module: the default export
with createSession, addParticipant, recordAnswer, advanceQuestion,
getLeaderboard, updateParticipantConnection, ...) and of the memory-relevant
parts of the socket command handlers (src/socket/quizSessionHandlers.js:
session:join, question:next, answer:submit, question:skip, session:end).

Modelling conventions:
- JavaScript Map is embedded as an insertion-ordered association list
  (JsMap); Map.get, Map.set, Map.has keep JS semantics (set on an existing
  key updates the value in place, otherwise appends).
- Machine timestamps (Date.now()) are passed in explicitly as an integer
  parameter `now`, in milliseconds.
- JS number arithmetic in the scoring path is exact rational arithmetic;
  Math.round is floor(x + 1/2), which matches JS on all finite inputs.
  The only divergence is division by zero (timePerQuestion = 0, which
  createSession cannot produce because of the `|| 30` default); theorems
  about the scoring formula carry the hypothesis 0 < timePerQuestion to
  mark that boundary.
- userName.localeCompare is embedded as code-point comparison of the
  character lists; on the ASCII inputs used in concrete scenarios the two
  agree.
- Fields of questions that never influence session state (options text,
  image, explanation, type, marks) are omitted from the Question record.
- Math.random inside generateSessionCode is embedded as an oracle stream
  (f : Nat -> String) of candidate codes.
-/

namespace GdgcQuiz

/-- JsMap models a JavaScript Map as an insertion-ordered association list. -/
abbrev JsMap (α : Type) : Type := List (String × α)

/-- Map.get: first entry with the given key. -/
def mapGet {α : Type} : JsMap α → String → Option α
  | [], _ => none
  | e :: rest, k => if e.1 = k then some e.2 else mapGet rest k

/-- Map.set: update in place when the key exists, append otherwise. -/
def mapSet {α : Type} : JsMap α → String → α → JsMap α
  | [], k, v => [(k, v)]
  | e :: rest, k, v => if e.1 = k then (k, v) :: rest else e :: mapSet rest k v

/-- Map.has. -/
def mapHas {α : Type} (m : JsMap α) (k : String) : Bool :=
  (mapGet m k).isSome

/-- Array.from(map.values()). -/
def mapValues {α : Type} (m : JsMap α) : List α :=
  m.map Prod.snd

/-- Session status strings of the source: lobby, in-progress, paused,
completed, interrupted. -/
inductive Status where
  | lobby
  | inProgress
  | paused
  | completed
  | interrupted
  deriving Repr, DecidableEq

/-- Quiz question as stored in the session snapshot; only the fields that
influence the in-memory session state are kept. -/
structure Question where
  question_id : String
  question_text : String
  correct_answers : List String
  deriving Repr, DecidableEq

/-- Participant record created by addParticipant in socketHandlers.js. -/
structure Participant where
  oderId : String
  userName : String
  userPhoto : Option String
  socketId : String
  score : Nat
  correctAnswers : Nat
  totalAnswered : Nat
  currentAnswer : Option String
  hasAnsweredCurrent : Bool
  isConnected : Bool
  lastDisconnectedAt : Option Int
  joinedAt : Int
  deriving Repr, DecidableEq

/-- In-memory session record created by createSession in socketHandlers.js.
The two setTimeout handles are modelled by their observable state: the
question timer as the scheduled duration in ms (none = no pending timer),
the admin disconnect timer as a flag. -/
structure Session where
  sessionCode : String
  sessionId : String
  quizId : String
  quizTitle : String
  adminId : String
  adminSocketId : String
  questions : List Question
  currentQuestionIndex : Int
  questionStartTime : Option Int
  timePerQuestion : Nat
  status : Status
  basePointsPerQuestion : Nat
  speedBonusMax : Nat
  allowLateJoin : Bool
  showLeaderboardAfterEach : Bool
  participants : JsMap Participant
  questionTimer : Option Nat
  adminDisconnectTimer : Bool
  createdAt : Int
  deriving DecidableEq

/-- Input record of createSession (the sessionData argument). Optional
fields model JS properties that may be absent. -/
structure SessionData where
  sessionId : String
  quizId : String
  quizTitle : String
  adminId : String
  adminSocketId : String
  questions : List Question
  timePerQuestion : Option Nat
  basePointsPerQuestion : Option Nat
  speedBonusMax : Option Nat
  allowLateJoin : Option Bool
  showLeaderboardAfterEach : Option Bool
  deriving DecidableEq

/-- Input record of addParticipant (the participantData argument). -/
structure ParticipantData where
  oderId : String
  userName : String
  userPhoto : Option String
  socketId : String
  deriving DecidableEq

/-- JS `x || d` for numbers: undefined and 0 both fall back to the default. -/
def jsOrNat (v : Option Nat) (dflt : Nat) : Nat :=
  match v with
  | none => dflt
  | some n => if n = 0 then dflt else n

/-- JS `x || false` for booleans. -/
def jsOrBool (v : Option Bool) : Bool :=
  match v with
  | none => false
  | some b => b

/-- JS Math.round on a rational: floor (x + 1/2); this matches JS rounding
of .5 toward positive infinity on every finite input. -/
def jsRound (q : ℚ) : ℤ :=
  ⌊q + 1 / 2⌋

/-- JS array indexing by a possibly negative index: out of range gives
undefined. -/
def listGetI {α : Type} (l : List α) (i : Int) : Option α :=
  if i < 0 then none else l.get? i.toNat

/-- createSession of socketHandlers.js, lifted over the activeSessions
registry: builds the session record with its defaults and unconditionally
stores it under the given code. -/
def createSession (registry : JsMap Session) (sessionCode : String)
    (d : SessionData) (now : Int) : Session × JsMap Session :=
  let session : Session := {
    sessionCode := sessionCode
    sessionId := d.sessionId
    quizId := d.quizId
    quizTitle := d.quizTitle
    adminId := d.adminId
    adminSocketId := d.adminSocketId
    questions := d.questions
    currentQuestionIndex := -1
    questionStartTime := none
    timePerQuestion := jsOrNat d.timePerQuestion 30
    status := .lobby
    basePointsPerQuestion := jsOrNat d.basePointsPerQuestion 100
    speedBonusMax := jsOrNat d.speedBonusMax 50
    allowLateJoin := jsOrBool d.allowLateJoin
    showLeaderboardAfterEach := d.showLeaderboardAfterEach.getD true
    participants := []
    questionTimer := none
    adminDisconnectTimer := false
    createdAt := now }
  (session, mapSet registry sessionCode session)

/-- Loop body of generateUniqueSessionCode: try candidate codes from the
oracle stream f, skipping codes already present in the registry; the
attempt counter of the source permits 100 generated candidates before the
throw, modelled as structural fuel. -/
def genUniqueAux (registry : JsMap Session) (f : Nat → String) :
    Nat → Nat → Except String String
  | _, 0 => .error "Failed to generate unique session code"
  | attempt, fuel + 1 =>
    let code := f attempt
    if mapHas registry code then genUniqueAux registry f (attempt + 1) fuel
    else .ok code

/-- generateUniqueSessionCode of socketHandlers.js: first fresh candidate
among the first 100 generated codes, error beyond that. -/
def generateUniqueSessionCode (registry : JsMap Session) (f : Nat → String) :
    Except String String :=
  genUniqueAux registry f 0 100

/-- addParticipant of socketHandlers.js (session level; the registry lookup
of the source is performed by the callers modelled below): always builds a
fresh zero-score participant and stores it under its oderId. -/
def addParticipant (s : Session) (pd : ParticipantData) (now : Int) :
    Participant × Session :=
  let p : Participant := {
    oderId := pd.oderId
    userName := pd.userName
    userPhoto := pd.userPhoto
    socketId := pd.socketId
    score := 0
    correctAnswers := 0
    totalAnswered := 0
    currentAnswer := none
    hasAnsweredCurrent := false
    isConnected := true
    lastDisconnectedAt := none
    joinedAt := now }
  (p, { s with participants := mapSet s.participants pd.oderId p })

/-- updateParticipantConnection of socketHandlers.js. The socketId argument
is optional, mirroring the JS default parameter null. -/
def updateParticipantConnection (s : Session) (oderId : String)
    (isConnected : Bool) (socketId : Option String) (now : Int) : Session :=
  match mapGet s.participants oderId with
  | none => s
  | some p =>
    let p' : Participant := { p with
      isConnected := isConnected
      socketId := match socketId with
        | some sid => sid
        | none => p.socketId
      lastDisconnectedAt := if isConnected then p.lastDisconnectedAt else some now }
    { s with participants := mapSet s.participants oderId p' }

/-- advanceQuestion of socketHandlers.js: cancel the pending question
timer, clear the per-question flags of every participant, increment the
index, stamp the start time, and flip lobby to in-progress when the new
index is 0. -/
def advanceQuestion (s : Session) (now : Int) : Session :=
  let ps := s.participants.map fun e =>
    (e.1, { e.2 with hasAnsweredCurrent := false, currentAnswer := none })
  let idx := s.currentQuestionIndex + 1
  { s with
    questionTimer := none
    participants := ps
    currentQuestionIndex := idx
    questionStartTime := some now
    status := if idx = 0 then .inProgress else s.status }

/-- Reply object of recordAnswer in socketHandlers.js. -/
inductive RecordResult where
  | error (msg : String)
  | success (isCorrect : Bool) (pointsAwarded : Nat) (speedBonus : Nat)
      (responseTimeMs : Int) (newScore : Nat)
  deriving Repr, DecidableEq

/-- recordAnswer of socketHandlers.js (session level; the registry lookup
of the source is performed by the callers modelled below). Date.now() is
the explicit `now`; a null questionStartTime coerces to 0 in the JS
subtraction, hence getD 0. -/
def recordAnswer (s : Session) (oderId : String) (selectedOption : String)
    (now : Int) : RecordResult × Session :=
  match mapGet s.participants oderId with
  | none => (.error "Participant not found", s)
  | some p =>
    if p.hasAnsweredCurrent then
      (.error "Already answered this question", s)
    else
      let responseTimeMs : Int := now - (s.questionStartTime.getD 0)
      let timeLimit : Int := (s.timePerQuestion : Int) * 1000
      if responseTimeMs > timeLimit + 1000 then
        (.error "Time expired for this question", s)
      else
        match listGetI s.questions s.currentQuestionIndex with
        | none => (.error "Question not found", s)
        | some question =>
          let isCorrect := question.correct_answers.contains selectedOption
          let speedBonus : Nat :=
            if isCorrect then
              let timeRatio : ℚ := 1 - (responseTimeMs : ℚ) / (timeLimit : ℚ)
              (jsRound (timeRatio * (s.speedBonusMax : ℚ))).toNat
            else 0
          let pointsAwarded : Nat :=
            if isCorrect then s.basePointsPerQuestion + speedBonus else 0
          let p' : Participant := { p with
            hasAnsweredCurrent := true
            currentAnswer := some selectedOption
            score := p.score + pointsAwarded
            totalAnswered := p.totalAnswered + 1
            correctAnswers := p.correctAnswers + (if isCorrect then 1 else 0) }
          (.success isCorrect pointsAwarded speedBonus responseTimeMs p'.score,
            { s with participants := mapSet s.participants oderId p' })

/-- Speed bonus exactly as the specification words it: round(maxSpeedBonus
x (1 - responseLatencyMs/timeLimitMs)), clamped to be nonnegative. -/
def specSpeedBonus (maxBonus : Nat) (latencyMs : Int) (timeLimitMs : Int) : Nat :=
  (jsRound ((maxBonus : ℚ) * (1 - (latencyMs : ℚ) / (timeLimitMs : ℚ)))).toNat

/-- Whole-set matching as the specification words it: the single selected
option matches the correct-answer set of the question as a whole. -/
def wholeSetMatch (sel : String) (q : Question) : Prop :=
  sel ∈ q.correct_answers ∧ ∀ c ∈ q.correct_answers, c = sel

instance (sel : String) (q : Question) : Decidable (wholeSetMatch sel q) := by
  unfold wholeSetMatch
  infer_instance

/-- Code-point comparison of character lists; embeds the ascending ordering
localeCompare induces on the ASCII names used here. True when the first
list sorts no later than the second. -/
def nameLe : List Char → List Char → Bool
  | [], _ => true
  | _ :: _, [] => false
  | c :: cs, d :: ds =>
    if c.toNat < d.toNat then true
    else if d.toNat < c.toNat then false
    else nameLe cs ds

/-- String comparison via the underlying character list. -/
def strLe (a b : String) : Bool :=
  nameLe a.data b.data

/-- Leaderboard comparator of getLeaderboard in socketHandlers.js, as the
relation "a sorts no later than b": score descending, then correctAnswers
descending, then userName ascending. -/
def lbLe (a b : Participant) : Bool :=
  if b.score ≠ a.score then decide (b.score < a.score)
  else if b.correctAnswers ≠ a.correctAnswers then decide (b.correctAnswers < a.correctAnswers)
  else strLe a.userName b.userName

/-- Propositional form of the leaderboard comparator. -/
def lbRel (a b : Participant) : Prop :=
  lbLe a b = true

instance : DecidableRel lbRel := fun a b =>
  inferInstanceAs (Decidable (lbLe a b = true))

/-- participants.sort(comparator) of getLeaderboard: JS Array.prototype.sort
is a stable sort, and a stable sort under a total preorder has a unique
result, so insertion sort computes the same list. -/
def sortParticipants (l : List Participant) : List Participant :=
  List.insertionSort lbRel l

/-- Leaderboard entry objects returned by getLeaderboard. -/
structure LeaderboardEntry where
  rank : Nat
  oderId : String
  userName : String
  userPhoto : Option String
  score : Nat
  correctAnswers : Nat
  totalAnswered : Nat
  deriving Repr, DecidableEq

/-- Projection of a sorted participant to a leaderboard entry at position
index, with rank := index + 1 exactly as in the source map. -/
def toEntry (index : Nat) (p : Participant) : LeaderboardEntry :=
  { rank := index + 1
    oderId := p.oderId
    userName := p.userName
    userPhoto := p.userPhoto
    score := p.score
    correctAnswers := p.correctAnswers
    totalAnswered := p.totalAnswered }

/-- The map((p, index) => ...) step of getLeaderboard, carrying the running
index. -/
def withRanks : List Participant → Nat → List LeaderboardEntry
  | [], _ => []
  | p :: rest, i => toEntry i p :: withRanks rest (i + 1)

/-- getLeaderboard of socketHandlers.js (session level): sort all
participant values, truncate to the limit, number the entries. -/
def getLeaderboard (s : Session) (limit : Nat) : List LeaderboardEntry :=
  withRanks ((sortParticipants (mapValues s.participants)).take limit) 0

/-- Memory-relevant behaviour of the question:next handler in
quizSessionHandlers.js: admin check, bounds check against the last index,
advanceQuestion, then arming the per-question timer; replies with the new
question index. -/
def questionNext (s : Session) (socketId : String) (now : Int) :
    Except String (Session × Int) :=
  if s.adminSocketId ≠ socketId then
    .error "Only the session admin can control the quiz"
  else if s.currentQuestionIndex ≥ (s.questions.length : Int) - 1 then
    .error "No more questions. End the quiz."
  else
    let s' := advanceQuestion s now
    let s'' := { s' with questionTimer := some (s'.timePerQuestion * 1000) }
    .ok (s'', s''.currentQuestionIndex)

/-- Callback replies of the session:join handler. The resync payload keeps
the fields the claims are about; the question content sent on reconnect
mid-question is summarised by the hasAnswered flag, and the roster sent to
a new joiner by the list of oderIds. -/
inductive JoinReply where
  | error (msg : String)
  | reconnected (quizTitle : String) (participantCount : Nat) (status : Status)
      (currentQuestionIndex : Int) (totalQuestions : Nat) (yourScore : Nat)
      (timePerQuestion : Nat) (hasAnswered : Option Bool)
  | joined (quizTitle : String) (participantCount : Nat)
      (participants : List String) (status : Status) (totalQuestions : Nat)
      (timePerQuestion : Nat)
  deriving Repr, DecidableEq

/-- Memory-relevant behaviour of the session:join handler in
quizSessionHandlers.js: required-field check (JS falsiness of the empty
string), status gate, then either the reconnection path through
updateParticipantConnection or the new-participant path through
addParticipant. -/
def sessionJoin (s : Session) (oderId userName : String)
    (userPhoto : Option String) (socketId : String) (now : Int) :
    JoinReply × Session :=
  if oderId = "" ∨ userName = "" then
    (.error "Session code, user ID, and name are required", s)
  else if s.status = .completed ∨ s.status = .interrupted then
    (.error "This quiz session has ended", s)
  else if s.status = .inProgress ∧ s.allowLateJoin = false then
    (.error "This quiz has already started. Late joining is not allowed.", s)
  else
    match mapGet s.participants oderId with
    | some p =>
      let s' := updateParticipantConnection s oderId true (some socketId) now
      (.reconnected s.quizTitle s'.participants.length s.status
        s.currentQuestionIndex s.questions.length p.score s.timePerQuestion
        (if s.status = .inProgress ∧ 0 ≤ s.currentQuestionIndex then
          some p.hasAnsweredCurrent
        else none), s')
    | none =>
      let r := addParticipant s ⟨oderId, userName, userPhoto, socketId⟩ now
      (.joined s.quizTitle r.2.participants.length
        (r.2.participants.map fun e => e.2.oderId) s.status
        s.questions.length s.timePerQuestion, r.2)

/-- Memory-relevant behaviour of handleQuizComplete in
quizSessionHandlers.js: a no-op on an already completed session, otherwise
endSession (cancel both timers, status completed). -/
def quizComplete (s : Session) : Session :=
  if s.status = .completed then s
  else { s with
    questionTimer := none
    adminDisconnectTimer := false
    status := .completed }

/-- Commands of the real-time surface that touch a session in memory, with
the Date.now() observed by the handler where relevant. -/
inductive Cmd where
  | join (oderId userName : String) (userPhoto : Option String)
      (socketId : String) (now : Int)
  | answer (oderId : String) (questionIndex : Int) (selectedOption : String)
      (now : Int)
  | next (socketId : String) (now : Int)
  | skip (socketId : String)
  | endQuiz (socketId : String)

/-- One command processed to completion against the session, as dispatched
by the handlers of quizSessionHandlers.js. answer:submit first verifies
that the submitted questionIndex still matches; question:skip clears the
timer and runs handleQuestionEnd, which leaves the session record
unchanged; session:end runs handleQuizComplete. -/
def step (s : Session) : Cmd → Session
  | .join oderId userName userPhoto socketId now =>
    (sessionJoin s oderId userName userPhoto socketId now).2
  | .answer oderId questionIndex selectedOption now =>
    if s.currentQuestionIndex ≠ questionIndex then s
    else (recordAnswer s oderId selectedOption now).2
  | .next socketId now =>
    match questionNext s socketId now with
    | .ok r => r.1
    | .error _ => s
  | .skip socketId =>
    if s.adminSocketId = socketId then { s with questionTimer := none } else s
  | .endQuiz socketId =>
    if s.adminSocketId = socketId then quizComplete s else s

/-- A whole command trace processed in order. -/
def runCmds (s : Session) (cmds : List Cmd) : Session :=
  cmds.foldl step s

end GdgcQuiz
namespace GdgcQuiz

theorem mapGet_mapSet_self {α : Type} (m : JsMap α) (k : String) (v : α) :
    mapGet (mapSet m k v) k = some v := by
  induction m with
  | nil => simp [mapSet, mapGet]
  | cons e rest ih =>
    by_cases h : e.1 = k
    · simp [mapSet, h, mapGet]
    · simp [mapSet, h, mapGet, ih]

theorem mapGet_mapSet_ne {α : Type} (m : JsMap α) (k k' : String) (v : α)
    (h : k' ≠ k) : mapGet (mapSet m k v) k' = mapGet m k' := by
  induction m with
  | nil => simp [mapSet, mapGet, Ne.symm h]
  | cons e rest ih =>
    by_cases h1 : e.1 = k
    · simp [mapSet, h1, mapGet, Ne.symm h]
    · simp only [mapSet, if_neg h1]
      by_cases h2 : e.1 = k'
      · simp [mapGet, h2]
      · simp [mapGet, h2, ih]

theorem mapSet_map_fst_of_mem {α : Type} (m : JsMap α) (k : String) (v w : α)
    (h : mapGet m k = some w) :
    (mapSet m k v).map Prod.fst = m.map Prod.fst := by
  induction m with
  | nil => simp [mapGet] at h
  | cons e rest ih =>
    by_cases h1 : e.1 = k
    · simp [mapSet, h1]
    · have h' : mapGet rest k = some w := by
        simpa [mapGet, h1] using h
      simp [mapSet, h1, ih h']

theorem nameLe_total (a : List Char) : ∀ b, nameLe a b = true ∨ nameLe b a = true := by
  induction a with
  | nil => intro b; left; cases b <;> rfl
  | cons c cs ih =>
    intro b
    cases b with
    | nil => right; rfl
    | cons d ds =>
      rcases Nat.lt_trichotomy c.toNat d.toNat with h | h | h
      · left; simp [nameLe, h]
      · rcases ih ds with h2 | h2
        · left; simp [nameLe, h, h2]
        · right; simp [nameLe, h.symm, h2]
      · right; simp [nameLe, h]

theorem nameLe_trans (a : List Char) : ∀ b c, nameLe a b = true → nameLe b c = true →
    nameLe a c = true := by
  induction a with
  | nil => intro b c _ _; cases c <;> rfl
  | cons x xs ih =>
    intro b c hab hbc
    cases b with
    | nil => simp [nameLe] at hab
    | cons y ys =>
      cases c with
      | nil => simp [nameLe] at hbc
      | cons z zs =>
        simp only [nameLe] at hab hbc ⊢
        split_ifs at hab hbc ⊢ <;> try rfl
        all_goals simp_all
        all_goals try omega
        exact ih ys zs hab hbc

end GdgcQuiz
namespace GdgcQuiz

theorem strLe_total (a b : String) : strLe a b = true ∨ strLe b a = true :=
  nameLe_total a.data b.data

theorem strLe_trans (a b c : String) (h1 : strLe a b = true) (h2 : strLe b c = true) :
    strLe a c = true :=
  nameLe_trans a.data b.data c.data h1 h2

theorem lbLe_iff (a b : Participant) : lbLe a b = true ↔
    (b.score < a.score ∨ (b.score = a.score ∧
      (b.correctAnswers < a.correctAnswers ∨ (b.correctAnswers = a.correctAnswers ∧
        strLe a.userName b.userName = true)))) := by
  unfold lbLe
  by_cases h1 : b.score = a.score
  · by_cases h2 : b.correctAnswers = a.correctAnswers
    · simp [h1, h2]
    · simp [h1, h2, decide_eq_true_iff]
  · simp [h1, decide_eq_true_iff]

instance : IsTotal Participant lbRel := by
  constructor
  intro a b
  unfold lbRel
  rw [lbLe_iff, lbLe_iff]
  rcases Nat.lt_trichotomy a.score b.score with h | h | h
  · right; left; exact h
  · rcases Nat.lt_trichotomy a.correctAnswers b.correctAnswers with h2 | h2 | h2
    · right; right; exact ⟨by omega, Or.inl h2⟩
    · rcases strLe_total a.userName b.userName with h3 | h3
      · left; right; exact ⟨by omega, Or.inr ⟨by omega, h3⟩⟩
      · right; right; exact ⟨by omega, Or.inr ⟨by omega, h3⟩⟩
    · left; right; exact ⟨by omega, Or.inl h2⟩
  · left; left; exact h

instance : IsTrans Participant lbRel := by
  constructor
  intro a b c hab hbc
  unfold lbRel at *
  rw [lbLe_iff] at hab hbc ⊢
  rcases hab with h1 | ⟨h1, h1'⟩
  · rcases hbc with h2 | ⟨h2, h2'⟩
    · left; omega
    · left; omega
  · rcases hbc with h2 | ⟨h2, h2'⟩
    · left; omega
    · rcases h1' with h3 | ⟨h3, h3'⟩
      · rcases h2' with h4 | ⟨h4, h4'⟩
        · right; exact ⟨by omega, Or.inl (by omega)⟩
        · right; exact ⟨by omega, Or.inl (by omega)⟩
      · rcases h2' with h4 | ⟨h4, h4'⟩
        · right; exact ⟨by omega, Or.inl (by omega)⟩
        · right; exact ⟨by omega, Or.inr ⟨by omega, strLe_trans _ _ _ h3' h4'⟩⟩

theorem sortParticipants_sorted (l : List Participant) :
    List.Sorted lbRel (sortParticipants l) :=
  List.sorted_insertionSort lbRel l

theorem sortParticipants_perm (l : List Participant) :
    List.Perm (sortParticipants l) l :=
  List.perm_insertionSort lbRel l

theorem withRanks_length (l : List Participant) : ∀ i, (withRanks l i).length = l.length := by
  induction l with
  | nil => intro i; rfl
  | cons p rest ih => intro i; simp [withRanks, ih]

theorem withRanks_rank (l : List Participant) : ∀ i k (h : k < (withRanks l i).length),
    ((withRanks l i).get ⟨k, h⟩).rank = i + k + 1 := by
  induction l with
  | nil => intro i k h; simp [withRanks] at h
  | cons p rest ih =>
    intro i k h
    cases k with
    | zero => simp [withRanks, toEntry]
    | succ k' =>
      have h' : k' < (withRanks rest (i + 1)).length := by
        simpa [withRanks] using h
      have := ih (i + 1) k' h'
      simp only [withRanks, List.get_cons_succ]
      omega

theorem mem_withRanks (l : List Participant) : ∀ i e, e ∈ withRanks l i →
    ∃ j p, p ∈ l ∧ e = toEntry j p := by
  induction l with
  | nil => intro i e he; simp [withRanks] at he
  | cons p rest ih =>
    intro i e he
    rcases List.mem_cons.mp he with h | h
    · exact ⟨i, p, List.mem_cons_self p rest, h⟩
    · rcases ih (i + 1) e h with ⟨j, q, hq, he'⟩
      exact ⟨j, q, List.mem_cons_of_mem p hq, he'⟩

/-- Derived relation on leaderboard entries: score descending, then
correctAnswers descending, then userName ascending. -/
def entryLe (e1 e2 : LeaderboardEntry) : Prop :=
  e2.score < e1.score ∨ (e2.score = e1.score ∧
    (e2.correctAnswers < e1.correctAnswers ∨ (e2.correctAnswers = e1.correctAnswers ∧
      strLe e1.userName e2.userName = true)))

theorem withRanks_pairwise (l : List Participant) : ∀ i, l.Pairwise lbRel →
    (withRanks l i).Pairwise entryLe := by
  induction l with
  | nil => intro i _; exact List.Pairwise.nil
  | cons p rest ih =>
    intro i h
    rcases List.pairwise_cons.mp h with ⟨hp, hrest⟩
    refine List.pairwise_cons.mpr ⟨?_, ih (i + 1) hrest⟩
    intro e he
    rcases mem_withRanks rest (i + 1) e he with ⟨j, q, hq, rfl⟩
    have hr := hp q hq
    unfold lbRel at hr
    rw [lbLe_iff] at hr
    exact hr

end GdgcQuiz
namespace GdgcQuiz

/-- Claim C1: for every accepted correct answer, the scoring engine awards
speedBonus = round(maxSpeedBonus x (1 - responseLatencyMs/timeLimitMs))
clamped to be nonnegative, and points = basePoints + speedBonus. The
hypothesis 0 < timePerQuestion marks the JS division-by-zero boundary that
the rational model does not share; createSession always satisfies it. -/
theorem recordAnswer_correct_scoring (s : Session) (oderId selectedOption : String)
    (now : Int) (p : Participant) (q : Question)
    (hp : mapGet s.participants oderId = some p)
    (hans : p.hasAnsweredCurrent = false)
    (hq : listGetI s.questions s.currentQuestionIndex = some q)
    (hcor : selectedOption ∈ q.correct_answers)
    (_htpq : 0 < s.timePerQuestion)
    (hlate : now - s.questionStartTime.getD 0 ≤ (s.timePerQuestion : Int) * 1000 + 1000) :
    (recordAnswer s oderId selectedOption now).1 =
      .success true
        (s.basePointsPerQuestion +
          specSpeedBonus s.speedBonusMax (now - s.questionStartTime.getD 0)
            ((s.timePerQuestion : Int) * 1000))
        (specSpeedBonus s.speedBonusMax (now - s.questionStartTime.getD 0)
          ((s.timePerQuestion : Int) * 1000))
        (now - s.questionStartTime.getD 0)
        (p.score + (s.basePointsPerQuestion +
          specSpeedBonus s.speedBonusMax (now - s.questionStartTime.getD 0)
            ((s.timePerQuestion : Int) * 1000))) := by
  have hcontains : q.correct_answers.contains selectedOption = true := by
    simpa using hcor
  rw [recordAnswer, hp]
  simp only [hans, Bool.false_eq_true, if_false, hq, hcontains, if_true,
    not_lt.mpr hlate, specSpeedBonus]
  simp [mul_comm]

end GdgcQuiz
namespace GdgcQuiz

/-- Fixture: a single-answer question. -/
def scenarioQuestion : Question :=
  { question_id := "q1", question_text := "sample", correct_answers := ["A"] }

/-- Fixture: a multi-select question with two correct options. -/
def multiQuestion : Question :=
  { question_id := "q2", question_text := "multi", correct_answers := ["A", "B"] }

/-- Fixture: a fresh participant. -/
def bob : Participant :=
  { oderId := "bob", userName := "Bob", userPhoto := none, socketId := "sock-bob",
    score := 0, correctAnswers := 0, totalAnswered := 0, currentAnswer := none,
    hasAnsweredCurrent := false, isConnected := true, lastDisconnectedAt := none,
    joinedAt := 0 }

/-- Fixture: an in-progress session on its first question with the
specification scenario configuration (basePoints 100, maxSpeedBonus 50,
time limit 30 seconds), question started at time 0. -/
def liveSession : Session :=
  { sessionCode := "ABC123", sessionId := "sess-1", quizId := "quiz-1",
    quizTitle := "Demo", adminId := "admin", adminSocketId := "sock-admin",
    questions := [scenarioQuestion], currentQuestionIndex := 0,
    questionStartTime := some 0, timePerQuestion := 30, status := .inProgress,
    basePointsPerQuestion := 100, speedBonusMax := 50, allowLateJoin := false,
    showLeaderboardAfterEach := true, participants := [("bob", bob)],
    questionTimer := some 30000, adminDisconnectTimer := false, createdAt := 0 }

/-- Witness for C1, Scenario A: basePoints 100, maxSpeedBonus 50, time
limit 30000 ms, correct answer at 2000 ms gives speedBonus 47 and
points 147. -/
theorem recordAnswer_correct_scoring_witness :
    specSpeedBonus 50 2000 30000 = 47 ∧
    (recordAnswer liveSession "bob" "A" 2000).1 = .success true 147 47 2000 147 := by
  have hsb : specSpeedBonus 50 2000 30000 = 47 := by
    norm_num [specSpeedBonus, jsRound]
    all_goals decide
  refine ⟨hsb, ?_⟩
  have h := recordAnswer_correct_scoring liveSession "bob" "A" 2000 bob scenarioQuestion
    (by decide) (by decide) (by decide) (by decide) (by decide) (by decide)
  rw [h]
  norm_num [liveSession, specSpeedBonus, jsRound]
  all_goals decide

/-- Fixture: the live session asking the multi-select question. -/
def multiSession : Session :=
  { liveSession with questions := [multiQuestion] }

/-- Counterexample to C2 as stated: on a multi-select question with
correct-answer set A, B the single selection A is judged correct by the
code (membership test), although it does not match the correct-answer set
as a whole, so partial credit is granted. -/
theorem recordAnswer_partial_credit_cex :
    (recordAnswer multiSession "bob" "A" 2000).1 = .success true 147 47 2000 147 ∧
    ¬ wholeSetMatch "A" multiQuestion := by
  constructor
  · norm_num [recordAnswer, mapGet, multiSession, liveSession, bob, multiQuestion,
      listGetI, jsRound]
    decide
  · decide

/-- Claim C2 (amended): an accepted answer is judged correct iff the
selected option is a member of the correct-answers list of the question
(equivalent to whole-set matching only for single-answer questions); an
answer judged incorrect yields points = 0 and speedBonus = 0 and leaves
the score and correct count of the participant unchanged. -/
theorem recordAnswer_membership_correctness (s : Session)
    (oderId selectedOption : String) (now : Int) (p : Participant) (q : Question)
    (hp : mapGet s.participants oderId = some p)
    (hans : p.hasAnsweredCurrent = false)
    (hq : listGetI s.questions s.currentQuestionIndex = some q)
    (hlate : now - s.questionStartTime.getD 0 ≤ (s.timePerQuestion : Int) * 1000 + 1000) :
    ∃ pts sb : Nat,
      (recordAnswer s oderId selectedOption now).1 =
        .success (q.correct_answers.contains selectedOption) pts sb
          (now - s.questionStartTime.getD 0) (p.score + pts) ∧
      (selectedOption ∉ q.correct_answers →
        pts = 0 ∧ sb = 0 ∧
        ∃ p', mapGet (recordAnswer s oderId selectedOption now).2.participants oderId
            = some p' ∧
          p'.score = p.score ∧ p'.correctAnswers = p.correctAnswers) := by
  rw [recordAnswer, hp]
  simp only [hans, Bool.false_eq_true, if_false, hq, not_lt.mpr hlate]
  cases hc : q.correct_answers.contains selectedOption with
  | true =>
    simp only [hc, if_true]
    refine ⟨_, _, rfl, ?_⟩
    intro hmem
    exact absurd (by simpa using hc) hmem
  | false =>
    simp only [hc, Bool.false_eq_true, if_false, Nat.add_zero]
    refine ⟨0, 0, rfl, ?_⟩
    intro _
    exact ⟨rfl, rfl, _, mapGet_mapSet_self _ _ _, rfl, rfl⟩

/-- Witness for the amended C2, Scenario B: an incorrect answer at any
latency yields points 0 and speedBonus 0 and the score stays 0. -/
theorem recordAnswer_membership_correctness_witness :
    (recordAnswer liveSession "bob" "C" 2000).1 = .success false 0 0 2000 0 := by
  obtain ⟨pts, sb, heq, hwrong⟩ := recordAnswer_membership_correctness liveSession
    "bob" "C" 2000 bob scenarioQuestion (by decide) (by decide) (by decide) (by decide)
  obtain ⟨hpts, hsb, -⟩ := hwrong (by decide)
  subst hpts
  subst hsb
  simpa [liveSession, bob] using heq

/-- Claim C3: at most one answer is accepted per participant and question:
immediately after a successful recordAnswer, any second submission by the
same participant is rejected with the duplicate-answer error and leaves
the whole session state, hence score, correctAnswers and totalAnswered,
unchanged. -/
theorem recordAnswer_duplicate_rejected (s s₁ : Session) (oderId sel₁ sel₂ : String)
    (now₁ now₂ : Int) (c : Bool) (pts sb : Nat) (rt : Int) (ns : Nat)
    (h : recordAnswer s oderId sel₁ now₁ = (.success c pts sb rt ns, s₁)) :
    recordAnswer s₁ oderId sel₂ now₂ = (.error "Already answered this question", s₁) := by
  cases hpg : mapGet s.participants oderId with
  | none => rw [recordAnswer, hpg] at h; simp at h
  | some p =>
    rw [recordAnswer, hpg] at h
    by_cases hac : p.hasAnsweredCurrent = true
    · simp [hac] at h
    · simp only [hac, if_false] at h
      by_cases hlate : now₁ - s.questionStartTime.getD 0 > (s.timePerQuestion : Int) * 1000 + 1000
      · simp [hlate] at h
      · simp only [hlate, if_false] at h
        cases hq : listGetI s.questions s.currentQuestionIndex with
        | none => rw [hq] at h; simp at h
        | some q =>
          rw [hq] at h
          injection h with h1 h2
          subst h2
          simp [recordAnswer, mapGet_mapSet_self]

end GdgcQuiz
namespace GdgcQuiz

/-- Witness for C3: after Bob answers question 0 of the live session, a
second submission is rejected with the duplicate error and the session is
untouched. -/
theorem recordAnswer_duplicate_rejected_witness :
    recordAnswer (recordAnswer liveSession "bob" "A" 2000).2 "bob" "B" 2500 =
      (.error "Already answered this question",
        (recordAnswer liveSession "bob" "A" 2000).2) := by
  have h1 : (recordAnswer liveSession "bob" "A" 2000).1 = .success true 147 47 2000 147 := by
    norm_num [recordAnswer, mapGet, liveSession, bob, scenarioQuestion, listGetI, jsRound]
    all_goals decide
  exact recordAnswer_duplicate_rejected liveSession _ "bob" "A" "B" 2000 2500
    true 147 47 2000 147 (by rw [← h1])

/-- Claim C4: an answer whose response latency exceeds the time limit plus
the 1000 ms skew tolerance is rejected with the late-answer error and the
session, hence the score and per-question state of the participant, is
unchanged; this holds for any questionTimer state, in particular while the
server-side timer is still pending. -/
theorem recordAnswer_late_rejected (s : Session) (oderId sel : String)
    (now : Int) (p : Participant)
    (hp : mapGet s.participants oderId = some p)
    (hans : p.hasAnsweredCurrent = false)
    (hlate : now - s.questionStartTime.getD 0 > (s.timePerQuestion : Int) * 1000 + 1000) :
    recordAnswer s oderId sel now = (.error "Time expired for this question", s) := by
  rw [recordAnswer, hp]
  simp only [hans, Bool.false_eq_true, if_false, hlate, if_true]

/-- Witness for C4, Scenario C: an answer at 31500 ms against a 30000 ms
limit is rejected while the question timer is still armed, and the state
is unchanged. -/
theorem recordAnswer_late_rejected_witness :
    liveSession.questionTimer = some 30000 ∧
    recordAnswer liveSession "bob" "A" 31500 =
      (.error "Time expired for this question", liveSession) :=
  ⟨rfl, recordAnswer_late_rejected liveSession "bob" "A" 31500 bob
    (by decide) (by decide) (by decide)⟩

/-- Rank-free data carried by a leaderboard entry. -/
def entryData (e : LeaderboardEntry) :
    String × String × Option String × Nat × Nat × Nat :=
  (e.oderId, e.userName, e.userPhoto, e.score, e.correctAnswers, e.totalAnswered)

/-- The same data read off a participant record. -/
def participantData (p : Participant) :
    String × String × Option String × Nat × Nat × Nat :=
  (p.oderId, p.userName, p.userPhoto, p.score, p.correctAnswers, p.totalAnswered)

/-- Numbering entries changes no entry data. -/
theorem withRanks_map_data (l : List Participant) :
    ∀ i, (withRanks l i).map entryData = l.map participantData := by
  induction l with
  | nil => intro i; rfl
  | cons p rest ih =>
    intro i
    simp only [withRanks, List.map_cons, ih]
    rfl

/-- Claim C5 (amended): the leaderboard is exactly the participant
registry sorted by score descending, then correctAnswers descending, then
userName ascending, truncated to the top limit entries, with ordinal
ranks rank = position + 1; entries never share a rank, even when score
and correctAnswers are equal. The entry data equals, position by
position, the take-limit prefix of sortParticipants applied to the
registry values, and sortParticipants is itself a sorted permutation of
those values, so the entries are precisely the top-N participants. -/
theorem getLeaderboard_sorted_positional (s : Session) (limit : Nat) :
    (getLeaderboard s limit).length = min limit (mapValues s.participants).length ∧
    (∀ k (h : k < (getLeaderboard s limit).length),
      ((getLeaderboard s limit).get ⟨k, h⟩).rank = k + 1) ∧
    List.Pairwise entryLe (getLeaderboard s limit) ∧
    (∀ e ∈ getLeaderboard s limit, ∃ p ∈ mapValues s.participants,
      e.oderId = p.oderId ∧ e.userName = p.userName ∧ e.score = p.score ∧
      e.correctAnswers = p.correctAnswers ∧ e.totalAnswered = p.totalAnswered) ∧
    (getLeaderboard s limit).map entryData =
      ((sortParticipants (mapValues s.participants)).take limit).map participantData ∧
    List.Pairwise lbRel (sortParticipants (mapValues s.participants)) ∧
    List.Perm (sortParticipants (mapValues s.participants)) (mapValues s.participants) := by
  refine ⟨?_, ?_, ?_, ?_, ?_, ?_, ?_⟩
  · rw [getLeaderboard, withRanks_length, List.length_take,
      (sortParticipants_perm (mapValues s.participants)).length_eq]
  · intro k h
    have := withRanks_rank ((sortParticipants (mapValues s.participants)).take limit) 0 k h
    simpa [getLeaderboard] using this
  · exact withRanks_pairwise _ 0
      (List.Pairwise.sublist (List.take_sublist limit _)
        (sortParticipants_sorted (mapValues s.participants)))
  · intro e he
    rw [getLeaderboard] at he
    obtain ⟨j, p, hpmem, rfl⟩ := mem_withRanks _ 0 e he
    have hmem : p ∈ mapValues s.participants :=
      (sortParticipants_perm (mapValues s.participants)).mem_iff.mp
        (List.take_subset limit _ hpmem)
    exact ⟨p, hmem, rfl, rfl, rfl, rfl, rfl⟩
  · rw [getLeaderboard]
    exact withRanks_map_data _ 0
  · exact sortParticipants_sorted (mapValues s.participants)
  · exact sortParticipants_perm (mapValues s.participants)

/-- Fixture: Alice with the same score and correct count as Bob. -/
def tieAlice : Participant :=
  { bob with
    oderId := "alice"
    userName := "Alice"
    socketId := "sock-alice"
    score := 100
    correctAnswers := 1
    totalAnswered := 1 }

/-- Fixture: Bob with the tied score. -/
def tieBob : Participant :=
  { bob with score := 100, correctAnswers := 1, totalAnswered := 1 }

/-- Fixture: session whose registry holds two fully tied participants,
Bob registered before Alice. -/
def tieSession : Session :=
  { liveSession with participants := [("bob", tieBob), ("alice", tieAlice)] }

/-- Counterexample to C5 as stated: two participants tied on both score
and correctAnswers are ordered by userName ascending but receive the
distinct ordinal ranks 1 and 2; the code never assigns dense shared
ranks. -/
theorem getLeaderboard_tied_rank_cex :
    getLeaderboard tieSession 10 = [toEntry 0 tieAlice, toEntry 1 tieBob] ∧
    tieAlice.score = tieBob.score ∧
    tieAlice.correctAnswers = tieBob.correctAnswers ∧
    (toEntry 0 tieAlice).rank = 1 ∧ (toEntry 1 tieBob).rank = 2 := by decide

/-- Witness for the amended C5 on the tied fixture: two entries, and the
first entry carries rank 1. -/
theorem getLeaderboard_sorted_positional_witness :
    (getLeaderboard tieSession 10).length = min 10 (mapValues tieSession.participants).length ∧
    ((getLeaderboard tieSession 10).get ⟨0, by decide⟩).rank = 0 + 1 ∧
    (getLeaderboard tieSession 10).map entryData =
      ((sortParticipants (mapValues tieSession.participants)).take 10).map participantData :=
  ⟨(getLeaderboard_sorted_positional tieSession 10).1,
    (getLeaderboard_sorted_positional tieSession 10).2.1 0 (by decide),
    (getLeaderboard_sorted_positional tieSession 10).2.2.2.2.1⟩

end GdgcQuiz
namespace GdgcQuiz

/-- Claim C6: when more questions remain, question:next issued by the
admin advances the session: the pending question timer is cancelled by
advanceQuestion (and re-armed for the new question by the handler), every
participant has hasAnsweredCurrent and currentAnswer cleared, the index
grows by exactly one, the start time is stamped, and the first call (index
-1) flips the session to in-progress; at the last index the handler fails
with the out-of-questions error. -/
theorem question_next_spec (s : Session) (now : Int) :
    (s.currentQuestionIndex < (s.questions.length : Int) - 1 →
      questionNext s s.adminSocketId now =
        .ok ({ advanceQuestion s now with
            questionTimer := some (s.timePerQuestion * 1000) },
          s.currentQuestionIndex + 1) ∧
      (advanceQuestion s now).currentQuestionIndex = s.currentQuestionIndex + 1 ∧
      (advanceQuestion s now).questionStartTime = some now ∧
      (advanceQuestion s now).questionTimer = none ∧
      (advanceQuestion s now).questions = s.questions ∧
      (∀ e ∈ (advanceQuestion s now).participants,
        e.2.hasAnsweredCurrent = false ∧ e.2.currentAnswer = none) ∧
      (s.currentQuestionIndex = -1 → (advanceQuestion s now).status = .inProgress)) ∧
    (s.currentQuestionIndex ≥ (s.questions.length : Int) - 1 →
      questionNext s s.adminSocketId now = .error "No more questions. End the quiz.") := by
  constructor
  · intro h
    refine ⟨?_, rfl, rfl, rfl, rfl, ?_, ?_⟩
    · rw [questionNext, if_neg (by simp), if_neg (by omega)]
      rfl
    · intro e he
      simp only [advanceQuestion, List.mem_map] at he
      obtain ⟨a, -, rfl⟩ := he
      exact ⟨rfl, rfl⟩
    · intro hidx
      simp [advanceQuestion, hidx]
  · intro h
    rw [questionNext, if_neg (by simp), if_pos h]

/-- Fixture: a lobby session before the first question. -/
def lobbySession : Session :=
  { liveSession with
    currentQuestionIndex := -1
    status := .lobby
    questionStartTime := none
    questionTimer := none }

/-- Witness for C6: advancing the lobby fixture stamps the start time,
moves the index from -1 to 0 and starts the quiz. -/
theorem question_next_spec_witness :
    (advanceQuestion lobbySession 5).questionStartTime = some 5 ∧
    (advanceQuestion lobbySession 5).currentQuestionIndex = 0 ∧
    (advanceQuestion lobbySession 5).status = .inProgress := by
  have h := (question_next_spec lobbySession 5).1 (by decide)
  exact ⟨h.2.2.1, h.2.1.trans (by decide), h.2.2.2.2.2.2 (by decide)⟩

/-- Helper: sessionJoin never changes the questions, the question index,
the status gate fields used by the invariant proof. -/
theorem sessionJoin_preserves (s : Session) (oderId userName : String)
    (userPhoto : Option String) (socketId : String) (now : Int) :
    (sessionJoin s oderId userName userPhoto socketId now).2.questions = s.questions ∧
    (sessionJoin s oderId userName userPhoto socketId now).2.currentQuestionIndex
      = s.currentQuestionIndex := by
  rw [sessionJoin]
  by_cases h1 : oderId = "" ∨ userName = ""
  · rw [if_pos h1]
    exact ⟨rfl, rfl⟩
  · rw [if_neg h1]
    by_cases h2 : s.status = .completed ∨ s.status = .interrupted
    · rw [if_pos h2]
      exact ⟨rfl, rfl⟩
    · rw [if_neg h2]
      by_cases h3 : s.status = .inProgress ∧ s.allowLateJoin = false
      · rw [if_pos h3]
        exact ⟨rfl, rfl⟩
      · rw [if_neg h3]
        cases hg : mapGet s.participants oderId with
        | some p =>
          simp only [updateParticipantConnection, hg]
          exact ⟨by trivial, by trivial⟩
        | none => exact ⟨rfl, rfl⟩

/-- Helper: recordAnswer never changes the questions or the question
index. -/
theorem recordAnswer_preserves (s : Session) (oderId sel : String) (now : Int) :
    (recordAnswer s oderId sel now).2.questions = s.questions ∧
    (recordAnswer s oderId sel now).2.currentQuestionIndex = s.currentQuestionIndex := by
  rw [recordAnswer]
  cases mapGet s.participants oderId with
  | none => exact ⟨rfl, rfl⟩
  | some p =>
    by_cases h1 : p.hasAnsweredCurrent = true
    · simp only [h1, if_true]
      exact ⟨by trivial, by trivial⟩
    · simp only [h1, if_false]
      by_cases h2 : now - s.questionStartTime.getD 0 > (s.timePerQuestion : Int) * 1000 + 1000
      · rw [if_pos h2]
        exact ⟨rfl, rfl⟩
      · rw [if_neg h2]
        cases listGetI s.questions s.currentQuestionIndex with
        | none => exact ⟨rfl, rfl⟩
        | some q => exact ⟨rfl, rfl⟩

/-- Helper: one command keeps the question list, never decreases the
index, and keeps the index at most length - 1. -/
theorem step_invariant (s : Session) (c : Cmd)
    (h : s.currentQuestionIndex ≤ (s.questions.length : Int) - 1) :
    (step s c).questions = s.questions ∧
    s.currentQuestionIndex ≤ (step s c).currentQuestionIndex ∧
    (step s c).currentQuestionIndex ≤ ((step s c).questions.length : Int) - 1 := by
  cases c with
  | join oderId userName userPhoto socketId now =>
    obtain ⟨hq, hi⟩ := sessionJoin_preserves s oderId userName userPhoto socketId now
    simp only [step]
    exact ⟨hq, le_of_eq hi.symm, by rw [hq, hi]; exact h⟩
  | answer oderId questionIndex sel now =>
    rw [step]
    split_ifs with h1
    · exact ⟨rfl, le_refl _, h⟩
    · obtain ⟨hq, hi⟩ := recordAnswer_preserves s oderId sel now
      exact ⟨hq, le_of_eq hi.symm, by rw [hq, hi]; exact h⟩
  | next socketId now =>
    rw [step, questionNext]
    split_ifs with h1 h2
    · exact ⟨rfl, le_refl _, h⟩
    · exact ⟨rfl, le_refl _, h⟩
    · refine ⟨rfl, by simp [advanceQuestion], ?_⟩
      simp only [advanceQuestion]
      omega
  | skip socketId =>
    rw [step]
    split_ifs with h1
    · exact ⟨rfl, le_refl _, h⟩
    · exact ⟨rfl, le_refl _, h⟩
  | endQuiz socketId =>
    rw [step]
    split_ifs with h1
    · rw [quizComplete]
      split_ifs with h2
      · exact ⟨rfl, le_refl _, h⟩
      · exact ⟨rfl, le_refl _, h⟩
    · exact ⟨rfl, le_refl _, h⟩

/-- Claim C7: under any sequence of commands processed by the handlers,
currentQuestionIndex never decreases and never exceeds
questions.length - 1, provided it satisfies that bound initially (as it
does for every session created by createSession, which starts at -1). -/
theorem currentQuestionIndex_invariant (cmds : List Cmd) (s : Session)
    (h : s.currentQuestionIndex ≤ (s.questions.length : Int) - 1) :
    s.currentQuestionIndex ≤ (runCmds s cmds).currentQuestionIndex ∧
    (runCmds s cmds).currentQuestionIndex
      ≤ ((runCmds s cmds).questions.length : Int) - 1 := by
  induction cmds generalizing s with
  | nil => exact ⟨le_refl _, h⟩
  | cons c rest ih =>
    obtain ⟨hq, hmono, hbound⟩ := step_invariant s c h
    obtain ⟨ih1, ih2⟩ := ih (step s c) hbound
    exact ⟨le_trans hmono ih1, ih2⟩

/-- Witness for C7: a concrete trace on the lobby fixture (join, advance,
answer, advance past the end, skip, end) keeps the index within bounds
and never decreases it. -/
theorem currentQuestionIndex_invariant_witness :
    lobbySession.currentQuestionIndex ≤ ((lobbySession.questions.length : Int) - 1) ∧
    lobbySession.currentQuestionIndex ≤
      (runCmds lobbySession
        [.join "carol" "Carol" none "sock-carol" 1, .next "sock-admin" 2,
          .answer "carol" 0 "A" 3, .next "sock-admin" 4, .skip "sock-admin",
          .endQuiz "sock-admin"]).currentQuestionIndex :=
  ⟨by decide,
    (currentQuestionIndex_invariant
      [.join "carol" "Carol" none "sock-carol" 1, .next "sock-admin" 2,
        .answer "carol" 0 "A" 3, .next "sock-admin" 4, .skip "sock-admin",
        .endQuiz "sock-admin"] lobbySession (by decide)).1⟩

end GdgcQuiz
namespace GdgcQuiz

/-- Reply classifier: was the join answered with the resync payload. -/
def JoinReply.isReconnected : JoinReply → Bool
  | .reconnected _ _ _ _ _ _ _ _ => true
  | _ => false

/-- The yourScore field of a resync reply. -/
def JoinReply.yourScore : JoinReply → Option Nat
  | .reconnected _ _ _ _ _ sc _ _ => some sc
  | _ => none

/-- Fixture: Bob marked disconnected. -/
def offlineBob : Participant :=
  { bob with isConnected := false }

/-- Fixture: the in-progress session (late join disallowed) holding only
the disconnected Bob. -/
def awaySession : Session :=
  { liveSession with participants := [("bob", offlineBob)] }

/-- Counterexample to C8 as stated: the status gate of session:join runs
before the reconnection check, so a repeated join by the registered but
disconnected Bob into an in-progress session without allowLateJoin is
rejected and is not treated as a reconnection: connected stays false. -/
theorem session_join_reconnect_gate_cex :
    (sessionJoin awaySession "bob" "Bob" none "sock-new" 99).1 =
      .error "This quiz has already started. Late joining is not allowed." ∧
    (sessionJoin awaySession "bob" "Bob" none "sock-new" 99).2 = awaySession ∧
    mapGet awaySession.participants "bob" = some offlineBob ∧
    offlineBob.isConnected = false := by decide

/-- Helper: when the field check and the status gate pass and the
participant exists, session:join takes the reconnection path: it stores
the same participant with isConnected set and the socket identity
refreshed, and replies with the resync payload carrying the stored
score. -/
theorem sessionJoin_existing_reconnects (s : Session) (oderId userName : String)
    (userPhoto : Option String) (socketId : String) (now : Int) (p : Participant)
    (hoid : oderId ≠ "") (hname : userName ≠ "")
    (hc : s.status ≠ .completed) (hi : s.status ≠ .interrupted)
    (hlj : s.status = .inProgress → s.allowLateJoin = true)
    (hp : mapGet s.participants oderId = some p) :
    (sessionJoin s oderId userName userPhoto socketId now).2.participants =
      mapSet s.participants oderId
        { p with isConnected := true, socketId := socketId } ∧
    JoinReply.isReconnected (sessionJoin s oderId userName userPhoto socketId now).1
      = true ∧
    JoinReply.yourScore (sessionJoin s oderId userName userPhoto socketId now).1
      = some p.score := by
  rw [sessionJoin, if_neg (by simp [hoid, hname]), if_neg (by simp [hc, hi]),
    if_neg (by rintro ⟨ha, hb⟩; rw [hlj ha] at hb; exact Bool.noConfusion hb)]
  simp only [hp, updateParticipantConnection]
  exact ⟨rfl, rfl, rfl⟩

/-- Claim C8 (amended): a repeated join with a registered participantId
that passes the session-status gate (session not completed or interrupted,
and not in-progress with late join disallowed) is treated as a
reconnection: it sets isConnected, refreshes the socket identity,
preserves score, correctAnswers and totalAnswered exactly, replies with
the stored score, and never creates a second registry entry; when the gate
rejects the join, the state is also untouched. -/
theorem session_join_repeat_reconnects (s : Session) (oderId userName : String)
    (userPhoto : Option String) (socketId : String) (now : Int) (p : Participant)
    (hoid : oderId ≠ "") (hname : userName ≠ "")
    (hc : s.status ≠ .completed) (hi : s.status ≠ .interrupted)
    (hlj : s.status = .inProgress → s.allowLateJoin = true)
    (hp : mapGet s.participants oderId = some p) :
    JoinReply.isReconnected (sessionJoin s oderId userName userPhoto socketId now).1
      = true ∧
    JoinReply.yourScore (sessionJoin s oderId userName userPhoto socketId now).1
      = some p.score ∧
    (∃ p', mapGet (sessionJoin s oderId userName userPhoto socketId now).2.participants
        oderId = some p' ∧
      p'.isConnected = true ∧ p'.socketId = socketId ∧ p'.score = p.score ∧
      p'.correctAnswers = p.correctAnswers ∧ p'.totalAnswered = p.totalAnswered) ∧
    (sessionJoin s oderId userName userPhoto socketId now).2.participants.map Prod.fst
      = s.participants.map Prod.fst := by
  obtain ⟨hparts, hrec, hscore⟩ :=
    sessionJoin_existing_reconnects s oderId userName userPhoto socketId now p
      hoid hname hc hi hlj hp
  refine ⟨hrec, hscore,
    ⟨{ p with isConnected := true, socketId := socketId }, ?_, rfl, rfl, rfl, rfl, rfl⟩, ?_⟩
  · rw [hparts]
    exact mapGet_mapSet_self _ _ _
  · rw [hparts]
    exact mapSet_map_fst_of_mem _ _ _ _ hp

/-- Fixture: Bob with a running score, currently disconnected. -/
def scoredBob : Participant :=
  { bob with
    score := 147
    correctAnswers := 1
    totalAnswered := 1
    isConnected := false }

/-- Fixture: in-progress session with late join allowed holding the
disconnected scored Bob. -/
def rejoinSession : Session :=
  { liveSession with
    allowLateJoin := true
    participants := [("bob", scoredBob)] }

/-- Witness for the amended C8: rejoining restores the connection and
reports the preserved score 147. -/
theorem session_join_repeat_reconnects_witness :
    JoinReply.isReconnected (sessionJoin rejoinSession "bob" "Bob" none "sock-new" 50).1
      = true ∧
    JoinReply.yourScore (sessionJoin rejoinSession "bob" "Bob" none "sock-new" 50).1
      = some scoredBob.score :=
  let h := session_join_repeat_reconnects rejoinSession "bob" "Bob" none "sock-new" 50
    scoredBob (by decide) (by decide) (by decide) (by decide) (by decide) (by decide)
  ⟨h.1, h.2.1⟩

/-- Fixture: creation payload titled Old. -/
def oldData : SessionData :=
  { sessionId := "db-1", quizId := "quiz-1", quizTitle := "Old",
    adminId := "admin", adminSocketId := "sock-admin",
    questions := [scenarioQuestion], timePerQuestion := some 30,
    basePointsPerQuestion := none, speedBonusMax := none,
    allowLateJoin := none, showLeaderboardAfterEach := none }

/-- Fixture: creation payload titled New. -/
def newData : SessionData :=
  { oldData with sessionId := "db-2", quizTitle := "New" }

/-- Fixture: registry holding the Old session under code ABC123. -/
def regOne : JsMap Session :=
  (createSession [] "ABC123" oldData 0).2

/-- Counterexample to C9 as stated: createSession called with a code that
already exists in the registry does not fail; it silently replaces the
stored session (title Old) with the new one (title New). -/
theorem createSession_overwrite_cex :
    mapGet regOne "ABC123" = some (createSession [] "ABC123" oldData 0).1 ∧
    (createSession [] "ABC123" oldData 0).1.quizTitle = "Old" ∧
    mapGet (createSession regOne "ABC123" newData 5).2 "ABC123" =
      some (createSession regOne "ABC123" newData 5).1 ∧
    (createSession regOne "ABC123" newData 5).1.quizTitle = "New" := by decide

/-- Helper: any code returned by the retry loop is absent from the
registry. -/
theorem genUniqueAux_fresh (registry : JsMap Session) (f : Nat → String) :
    ∀ fuel attempt code, genUniqueAux registry f attempt fuel = .ok code →
      mapGet registry code = none := by
  intro fuel
  induction fuel with
  | zero => intro attempt code h; simp [genUniqueAux] at h
  | succ n ih =>
    intro attempt code h
    rw [genUniqueAux] at h
    by_cases hh : mapHas registry (f attempt) = true
    · rw [if_pos hh] at h
      exact ih (attempt + 1) code h
    · rw [if_neg hh] at h
      injection h with h
      subst h
      cases hget : mapGet registry (f attempt) with
      | none => rfl
      | some v =>
        rw [mapHas, hget] at hh
        simp at hh

/-- Claim C9 (amended): createSession itself performs no existence check
and cannot fail: it unconditionally stores the session, replacing any
session already held under the code; uniqueness among active sessions is
instead enforced at the session:create call-site by
generateUniqueSessionCode, which only returns codes absent from the
registry, so that flow never replaces an existing session and leaves all
other entries untouched. -/
theorem createSession_callsite_uniqueness (registry : JsMap Session)
    (f : Nat → String) (code : String) (d : SessionData) (now : Int)
    (h : generateUniqueSessionCode registry f = .ok code) :
    mapGet registry code = none ∧
    mapGet (createSession registry code d now).2 code =
      some (createSession registry code d now).1 ∧
    ∀ c, c ≠ code → mapGet (createSession registry code d now).2 c = mapGet registry c := by
  have hfresh := genUniqueAux_fresh registry f 100 0 code h
  refine ⟨hfresh, ?_, ?_⟩
  · simp only [createSession]
    exact mapGet_mapSet_self _ _ _
  · intro c hcne
    simp only [createSession]
    exact mapGet_mapSet_ne _ _ _ _ hcne

/-- Witness for the amended C9: with a candidate stream producing XYZ789
over the one-session registry, the returned code is fresh. -/
theorem createSession_callsite_uniqueness_witness :
    generateUniqueSessionCode regOne (fun _ => "XYZ789") = .ok "XYZ789" ∧
    mapGet regOne "XYZ789" = none :=
  ⟨by rfl,
    (createSession_callsite_uniqueness regOne (fun _ => "XYZ789") "XYZ789"
      newData 7 (by rfl)).1⟩

/-- Claim C10: addParticipant called with an oderId that is already
registered replaces the entry with a fresh participant whose score,
correctAnswers and totalAnswered are 0 and hasAnsweredCurrent is false,
without duplicating the key; join idempotence at the command surface rests
entirely on session:join checking getParticipant first: for the same
session the handler instead preserves the stored score. -/
theorem addParticipant_replaces_vs_join (s : Session) (pd : ParticipantData)
    (now : Int) (p : Participant)
    (hp : mapGet s.participants pd.oderId = some p) :
    ((addParticipant s pd now).1.score = 0 ∧
      (addParticipant s pd now).1.correctAnswers = 0 ∧
      (addParticipant s pd now).1.totalAnswered = 0 ∧
      (addParticipant s pd now).1.hasAnsweredCurrent = false ∧
      mapGet (addParticipant s pd now).2.participants pd.oderId =
        some (addParticipant s pd now).1 ∧
      (addParticipant s pd now).2.participants.map Prod.fst =
        s.participants.map Prod.fst) ∧
    (pd.oderId ≠ "" → pd.userName ≠ "" →
      s.status ≠ .completed → s.status ≠ .interrupted →
      (s.status = .inProgress → s.allowLateJoin = true) →
      ∃ p', mapGet
          (sessionJoin s pd.oderId pd.userName pd.userPhoto pd.socketId now).2.participants
          pd.oderId = some p' ∧
        p'.score = p.score) := by
  constructor
  · refine ⟨rfl, rfl, rfl, rfl, ?_, ?_⟩
    · simp only [addParticipant]
      exact mapGet_mapSet_self _ _ _
    · simp only [addParticipant]
      exact mapSet_map_fst_of_mem _ _ _ _ hp
  · intro h1 h2 h3 h4 h5
    obtain ⟨hparts, -, -⟩ :=
      sessionJoin_existing_reconnects s pd.oderId pd.userName pd.userPhoto
        pd.socketId now p h1 h2 h3 h4 h5 hp
    rw [hparts]
    exact ⟨_, mapGet_mapSet_self _ _ _, rfl⟩

/-- Witness for C10: on the rejoin fixture, a direct addParticipant resets
the stored score 147 to 0, while the stored entry the handler preserves
carries 147. -/
theorem addParticipant_replaces_vs_join_witness :
    (addParticipant rejoinSession ⟨"bob", "Bob", none, "sock-new"⟩ 50).1.score = 0 ∧
    mapGet rejoinSession.participants "bob" = some scoredBob ∧
    scoredBob.score = 147 :=
  ⟨(addParticipant_replaces_vs_join rejoinSession ⟨"bob", "Bob", none, "sock-new"⟩ 50
      scoredBob (by decide)).1.1,
    by decide, rfl⟩

end GdgcQuiz
